import Mathlib

/-!
Verification of the ticketing backend: a shallow embedding of the
event-purchase transaction (EventService.purchaseTickets and friends),
the session ledger (SessionService), the authentication gate
(middleware authenticate), and the auth endpoints (AuthService and
AuthController), translated from the TypeScript source.  Machine
integers of the source are modelled as Int or Nat; Date values as Int
timestamps; SQL tables as lists of rows; the PostgreSQL transaction of
a single connection as a committed state plus an optional open
transaction overlay.  Timestamp bookkeeping columns (created_at,
updated_at) that no property mentions are omitted from row types.
-/

namespace TicketApp

/-- Event status enumeration, from the events table CHECK constraint and the
Event model: upcoming, live, completed, cancelled. -/
inductive EventStatus where
  | upcoming
  | live
  | completed
  | cancelled
  deriving DecidableEq, Repr

/-- String rendering of an event status, as interpolated into error messages
by the source. -/
def EventStatus.str : EventStatus → String
  | .upcoming => "upcoming"
  | .live => "live"
  | .completed => "completed"
  | .cancelled => "cancelled"

/-- A row of the events table (columns used by the core: id, title,
total_tickets, available_tickets, price, status).  The DECIMAL price is
modelled as an Int (cents); it is only ever copied, never computed with. -/
structure Event where
  id : Nat
  title : String
  total_tickets : Int
  available_tickets : Int
  price : Int
  status : EventStatus
  deriving DecidableEq, Repr

/-- A row of the tickets table as inserted by the purchase transaction. -/
structure Ticket where
  event_id : Nat
  user_id : Nat
  title : String
  status : String
  ticket_type : String
  quantity : Int
  purchase_price : Int
  deriving DecidableEq, Repr

/-- The database state visible to the event service: the events and tickets
tables. -/
structure Db where
  events : List Event
  tickets : List Ticket
  deriving DecidableEq, Repr

/-- SELECT * FROM events WHERE id = eventId (first row or null), as in
EventService.getEventById; also the read half of the FOR UPDATE select in
purchaseTickets. -/
def getEventById (db : Db) (id : Nat) : Option Event :=
  db.events.find? (fun e => e.id == id)

/-- UPDATE events SET available_tickets = v WHERE id = id: every row whose id
matches gets the new value. -/
def setAvailable (db : Db) (id : Nat) (v : Int) : Db :=
  { db with
    events := db.events.map (fun e =>
      if e.id == id then { e with available_tickets := v } else e) }

/-- INSERT INTO tickets: appends one row. -/
def insertTicket (db : Db) (t : Ticket) : Db :=
  { db with tickets := db.tickets ++ [t] }

/-- A single pooled PostgreSQL connection: the committed database plus the
overlay of an open transaction (none when no transaction is open).
Statements executed inside a transaction act on the overlay; COMMIT
publishes it; ROLLBACK discards it. -/
structure Conn where
  committed : Db
  tx : Option Db
  deriving DecidableEq, Repr

/-- BEGIN: open a transaction whose initial view is the committed state. -/
def Conn.beginTx (c : Conn) : Conn :=
  { c with tx := some c.committed }

/-- The database a statement on this connection sees. -/
def Conn.view (c : Conn) : Db :=
  c.tx.getD c.committed

/-- Effect of a mutating statement: inside a transaction it updates the
overlay only; outside, it takes effect immediately. -/
def Conn.write (c : Conn) (d : Db) : Conn :=
  match c.tx with
  | some _ => { c with tx := some d }
  | none => { committed := d, tx := none }

/-- COMMIT: publish the overlay; a no-op when no transaction is open. -/
def Conn.commitTx (c : Conn) : Conn :=
  match c.tx with
  | some d => { committed := d, tx := none }
  | none => c

/-- ROLLBACK: discard the overlay; a no-op when no transaction is open
(PostgreSQL emits a warning and succeeds). -/
def Conn.rollbackTx (c : Conn) : Conn :=
  { c with tx := none }

/-- Fault injection for the statements the purchase transaction issues after
BEGIN: the FOR UPDATE select, the inventory update, each ticket insert, the
COMMIT itself, and the post-commit re-fetch of the event.  A set flag makes
the corresponding await reject, which the source catches, answering with
ROLLBACK and a rethrow. -/
structure FaultSpec where
  selectFails : Bool
  updateFails : Bool
  insertFails : Nat → Bool
  commitFails : Bool
  refetchFails : Bool

/-- The fault-free execution. -/
def noFaults : FaultSpec :=
  { selectFails := false
    updateFails := false
    insertFails := fun _ => false
    commitFails := false
    refetchFails := false }

/-- Representative message of a rejected database call (an internal fault,
for example a dropped connection); it is what the controller catch block
sees as error.message in that case. -/
def internalFaultMsg : String :=
  "Connection terminated unexpectedly"

/-- Error message thrown on insufficient inventory, with the actual available
count, exactly as built in EventService.purchaseTickets. -/
def capacityMsg (available requested : Int) : String :=
  "Not enough tickets available. Available: " ++ toString available ++
    ", Requested: " ++ toString requested

/-- Error message thrown on a wrong event status, exactly as built in
EventService.purchaseTickets. -/
def wrongStatusMsg (s : EventStatus) : String :=
  "Cannot purchase tickets for " ++ s.str ++ " event"

/-- The ticket row inserted for unit number i of a purchase (the source
inserts one row per unit with quantity 1, the event price as price snapshot,
and a title numbering the unit from 1). -/
def purchasedTicket (eventId userId : Nat) (title : String) (price : Int)
    (i : Nat) : Ticket :=
  { event_id := eventId
    user_id := userId
    title := title ++ " - Ticket " ++ toString (i + 1)
    status := "purchased"
    ticket_type := "event"
    quantity := 1
    purchase_price := price }

/-- The list of ticket rows the insert loop produces for n units starting at
unit index start. -/
def purchasedTickets (eventId userId : Nat) (title : String) (price : Int) :
    Nat → Nat → List Ticket
  | 0, _ => []
  | n + 1, start =>
      purchasedTicket eventId userId title price start ::
        purchasedTickets eventId userId title price n (start + 1)

/-- The for-loop of INSERT statements in purchaseTickets, one insert per
unit, threading the connection; a failed insert aborts the loop carrying the
connection at the point of failure. -/
def insertLoop (f : FaultSpec) (eventId userId : Nat) (title : String)
    (price : Int) : Nat → Nat → Conn → Except (String × Conn) Conn
  | 0, _, c => .ok c
  | n + 1, i, c =>
      if f.insertFails i then .error (internalFaultMsg, c)
      else
        insertLoop f eventId userId title price n (i + 1)
          (c.write (insertTicket c.view (purchasedTicket eventId userId title price i)))

/-- EventService.purchaseTickets, translated statement by statement: BEGIN;
SELECT the event FOR UPDATE (not found throws); check availability (throws
the capacity message); check status (throws the wrong-status message);
UPDATE available_tickets (the events table CHECK rejects a negative value);
INSERT one ticket row per unit; COMMIT; re-fetch the event outside the
transaction and return it.  Every thrown error is caught, answered with
ROLLBACK on the same connection, and rethrown; the function returns the
thrown or returned value together with the committed database after the
attempt. -/
def purchaseTickets (f : FaultSpec) (db : Db) (eventId : Nat) (quantity : Int)
    (userId : Nat) : Except String (Option Event) × Db :=
  let c := Conn.beginTx { committed := db, tx := none }
  if f.selectFails then (.error internalFaultMsg, c.rollbackTx.committed)
  else
    match getEventById c.view eventId with
    | none => (.error "Event not found", c.rollbackTx.committed)
    | some event =>
        if event.available_tickets < quantity then
          (.error (capacityMsg event.available_tickets quantity),
            c.rollbackTx.committed)
        else if event.status != .upcoming && event.status != .live then
          (.error (wrongStatusMsg event.status), c.rollbackTx.committed)
        else if f.updateFails then
          (.error internalFaultMsg, c.rollbackTx.committed)
        else
          let newAvailable := event.available_tickets - quantity
          if newAvailable < 0 then
            -- events_available_tickets_check would reject the UPDATE;
            -- unreachable because of the availability check above
            (.error internalFaultMsg, c.rollbackTx.committed)
          else
            let c1 := c.write (setAvailable c.view eventId newAvailable)
            match insertLoop f eventId userId event.title event.price
                quantity.toNat 0 c1 with
            | .error (msg, cErr) => (.error msg, cErr.rollbackTx.committed)
            | .ok c2 =>
                if f.commitFails then
                  (.error internalFaultMsg, c2.rollbackTx.committed)
                else
                  let c3 := c2.commitTx
                  if f.refetchFails then
                    (.error internalFaultMsg, c3.rollbackTx.committed)
                  else (.ok (getEventById c3.committed eventId), c3.committed)

/-- Boolean success test for an Except result. -/
def isOkB {ε α : Type} (r : Except ε α) : Bool :=
  match r with
  | .ok _ => true
  | .error _ => false

/-- Whether the pattern occurs as a contiguous run inside the list. -/
def containsRun (pat : List Char) : List Char → Bool
  | [] => pat.isEmpty
  | c :: rest => pat.isPrefixOf (c :: rest) || containsRun pat rest

/-- JavaScript String.prototype.includes, used by the controllers to pick a
status code by substring-matching error messages. -/
def jsIncludes (s needle : String) : Bool :=
  containsRun needle.data s.data

/-- A row of the sessions table (columns the ledger logic reads or writes;
device/IP metadata and created_at are omitted).  Date columns are Int
timestamps. -/
structure Session where
  id : Nat
  user_id : Nat
  token_hash : String
  expires_at : Int
  is_revoked : Bool
  revoked_at : Option Int
  last_used_at : Int
  deriving DecidableEq, Repr

/-- SessionService.hashToken: SHA-256 of the raw token, modelled as an
injective deterministic tagging (the spec itself treats the hash as
deterministic and collision-free in practice). -/
def hashToken (token : String) : String :=
  "sha256:" ++ token

/-- SELECT * FROM sessions WHERE token_hash = hash LIMIT 1
(SessionService.findSessionByToken). -/
def findSessionByToken (store : List Session) (token : String) : Option Session :=
  store.find? (fun s => s.token_hash == hashToken token)

/-- SessionService.isTokenValid: false if no row, if revoked, or if the
ledger expiry has passed (strictly earlier than now). -/
def isTokenValid (store : List Session) (token : String) (now : Int) : Bool :=
  match findSessionByToken store token with
  | none => false
  | some session =>
      if session.is_revoked then false
      else if session.expires_at < now then false
      else true

/-- SessionService.revokeToken: UPDATE sessions SET is_revoked = true,
revoked_at = now WHERE token_hash = hash AND is_revoked = false RETURNING id;
returns whether any row was changed, together with the new table. -/
def revokeToken (store : List Session) (token : String) (now : Int) :
    Bool × List Session :=
  let h := hashToken token
  (store.any (fun s => s.token_hash == h && !s.is_revoked),
    store.map (fun s =>
      if s.token_hash == h && !s.is_revoked then
        { s with is_revoked := true, revoked_at := some now }
      else s))

/-- SessionService.updateLastUsed: UPDATE sessions SET last_used_at = now
WHERE token_hash = hash AND is_revoked = false. -/
def updateLastUsed (store : List Session) (token : String) (now : Int) :
    List Session :=
  let h := hashToken token
  store.map (fun s =>
    if s.token_hash == h && !s.is_revoked then { s with last_used_at := now }
    else s)

/-- The identity the gate attaches to an admitted request (models/Auth
AuthPayload). -/
structure AuthPayload where
  userId : Nat
  email : String
  role : String
  deriving DecidableEq, Repr

/-- Outcome of jwt.verify on a token string: a decoded payload, a
TokenExpiredError, or a JsonWebTokenError (malformed or bad signature).
These are the outcomes jsonwebtoken produces for tokens this system
issues. -/
inductive JwtResult where
  | ok (payload : AuthPayload)
  | expired
  | malformed
  deriving DecidableEq, Repr

/-- Outcome of the authentication middleware for one request: an error
response written to the client, or admission with the attached identity. -/
inductive GateOutcome where
  | rejected (status : Nat) (error message : String)
  | admitted (user : AuthPayload)
  deriving DecidableEq, Repr

/-- HTTP status of a gate outcome; admission is what lets the request reach
its handler. -/
def GateOutcome.status : GateOutcome → Option Nat
  | .rejected s _ _ => some s
  | .admitted _ => none

/-- Token extraction of the middleware: a Bearer scheme prefix is stripped
(substring from character 7); a header without the prefix is treated as the
raw token. -/
def extractToken (h : String) : String :=
  if "Bearer ".data.isPrefixOf h.data then String.mk (h.data.drop 7) else h

/-- The authenticate middleware, translated from middleware/auth.ts: missing
or empty header rejects 401; empty extracted token rejects 401; jwt.verify
failures reject 401 with tailored messages; a ledger check failure rejects
401; then the last_used touch runs (touchFails injects a rejected UPDATE,
which the outer catch turns into a 500 response), and on success the request
is admitted with the decoded identity attached.  Returns the outcome and the
sessions table after the request. -/
def authenticate (verify : String → JwtResult) (touchFails : Bool)
    (authHeader : Option String) (store : List Session) (now : Int) :
    GateOutcome × List Session :=
  match authHeader with
  | none => (.rejected 401 "Unauthorized" "No token provided", store)
  | some h =>
      if h = "" then (.rejected 401 "Unauthorized" "No token provided", store)
      else
        let token := extractToken h
        if token = "" then
          (.rejected 401 "Unauthorized" "Invalid token format", store)
        else
          match verify token with
          | .expired => (.rejected 401 "Unauthorized" "Token expired", store)
          | .malformed => (.rejected 401 "Unauthorized" "Invalid token", store)
          | .ok payload =>
              if !isTokenValid store token now then
                (.rejected 401 "Unauthorized" "Token has been revoked", store)
              else if touchFails then
                (.rejected 500 "Internal server error" "Token verification failed",
                  store)
              else (.admitted payload, updateLastUsed store token now)

/-- A row of the users table (columns the auth subsystem reads or writes). -/
structure User where
  id : Nat
  email : String
  password_hash : String
  first_name : Option String
  last_name : Option String
  role : String
  is_active : Bool
  deriving DecidableEq, Repr

/-- An HTTP response as produced by the controllers: status code plus the
error and message fields of the JSON body. -/
structure HttpResponse where
  status : Nat
  error : String
  message : String
  deriving DecidableEq, Repr

/-- Drop leading and trailing whitespace (String.prototype.trim). -/
def trimStr (s : String) : String :=
  String.mk (((s.data.dropWhile Char.isWhitespace).reverse.dropWhile
    Char.isWhitespace).reverse)

/-- sanitizeInput from utils/validation.ts: strip null bytes and control
characters (codes below 32 and 127), then trim. -/
def sanitizeInput (s : String) : String :=
  trimStr (String.mk (s.data.filter (fun c => !(c.toNat < 32 || c.toNat == 127))))

/-- A character the email regex class excludes: whitespace or the at
sign. -/
def isEmailChar (c : Char) : Bool :=
  !c.isWhitespace && c != '@'

/-- isValidEmail from utils/validation.ts: the test of the regular
expression anchored local-part, at sign, domain with an interior dot, where
local part and domain consist of characters that are neither whitespace nor
at signs.  The pattern matches exactly when the string has one at sign,
nonempty local and domain parts of such characters, and the domain has a dot
that is neither its first nor its last character. -/
def isValidEmailB (s : String) : Bool :=
  let cs := s.data
  match cs.findIdx? (fun c => c == '@') with
  | none => false
  | some i =>
      let locPart := cs.take i
      let domPart := cs.drop (i + 1)
      !locPart.isEmpty && !domPart.isEmpty &&
        locPart.all isEmailChar && domPart.all isEmailChar &&
        ((domPart.drop 1).dropLast.contains '.')

/-- Character-wise lower-casing (JavaScript toLowerCase, which on the
characters of interest lowers letter by letter). -/
def lowerStr (s : String) : String :=
  String.mk (s.data.map Char.toLower)

/-- validateAndSanitizeEmail from utils/validation.ts: reject a missing or
empty value, lower-case and sanitize, reject empty or overlong or
ill-formed results, otherwise return the sanitized email. -/
def validateAndSanitizeEmail (email : String) : Except String String :=
  if email = "" then .error "Email is required"
  else
    let sanitized := sanitizeInput (lowerStr email)
    if sanitized = "" then .error "Email cannot be empty"
    else if 255 < sanitized.length then .error "Email is too long"
    else if !isValidEmailB sanitized then .error "Invalid email format"
    else .ok sanitized

/-- Session lifetime in milliseconds for the default JWT_EXPIRES_IN of 7
days (AuthService.getExpirationDate). -/
def sevenDaysMs : Int :=
  7 * 24 * 60 * 60 * 1000

/-- SessionService.createSession: hash the raw token and insert a ledger
row; serial ids are modelled by the successor of the table length. -/
def createSession (store : List Session) (userId : Nat) (rawToken : String)
    (expiresAt now : Int) : Session × List Session :=
  let s : Session :=
    { id := store.length + 1
      user_id := userId
      token_hash := hashToken rawToken
      expires_at := expiresAt
      is_revoked := false
      revoked_at := none
      last_used_at := now }
  (s, store ++ [s])

/-- AuthService.login: find the user by email; a missing user throws the
generic invalid-credentials message; an inactive account throws the
inactive message; a failed bcrypt comparison throws the generic message;
otherwise sign a token for the identity, record a session, and return user
and token.  bcryptCompare and the signing function are environment
parameters. -/
def loginService (bcryptCompare : String → String → Bool)
    (sign : AuthPayload → String) (users : List User) (store : List Session)
    (email password : String) (now : Int) :
    Except String (User × String) × List Session :=
  match users.find? (fun u => u.email == email) with
  | none => (.error "Invalid email or password", store)
  | some user =>
      if !user.is_active then (.error "User account is inactive", store)
      else if !bcryptCompare password user.password_hash then
        (.error "Invalid email or password", store)
      else
        let role := if user.role = "" then "user" else user.role
        let token := sign { userId := user.id, email := user.email, role := role }
        let res := createSession store user.id token (now + sevenDaysMs) now
        (.ok (user, token), res.2)

/-- The status code the login controller catch block picks: 401 when the
message includes Invalid or inactive, 500 otherwise. -/
def loginErrorStatus (m : String) : Nat :=
  if jsIncludes m "Invalid" || jsIncludes m "inactive" then 401 else 500

/-- AuthController.login: validate and sanitize the email (400 on failure),
require a nonempty password (400), call the service with the sanitized
email, answer 200 on success, and map a thrown message to 401 or 500 by
substring matching. -/
def loginController (bcryptCompare : String → String → Bool)
    (sign : AuthPayload → String) (users : List User) (store : List Session)
    (email password : String) (now : Int) : HttpResponse × List Session :=
  match validateAndSanitizeEmail email with
  | .error m => ({ status := 400, error := "Validation error", message := m }, store)
  | .ok sanitized =>
      if password = "" || trimStr password = "" then
        ({ status := 400, error := "Validation error", message := "Password is required" },
          store)
      else
        match loginService bcryptCompare sign users store sanitized password now with
        | (.error m, store') =>
            ({ status := loginErrorStatus m
               error := if loginErrorStatus m == 401 then "Unauthorized"
                 else "Internal server error"
               message := m }, store')
        | (.ok _, store') =>
            ({ status := 200, error := "", message := "Login successful" }, store')

/-- Drop the first occurrence of the pattern from the list, leaving
everything else in place (JavaScript String.prototype.replace with an empty
replacement). -/
def dropFirstRun (pat : List Char) : List Char → List Char
  | [] => []
  | c :: rest =>
      if pat.isPrefixOf (c :: rest) then (c :: rest).drop pat.length
      else c :: dropFirstRun pat rest

/-- Token the logout controller extracts: the Authorization header with the
first Bearer prefix occurrence removed, or the empty string when the header
is missing (authorization?.replace or empty default). -/
def logoutTokenOf (authHeader : Option String) : String :=
  match authHeader with
  | none => ""
  | some h => String.mk (dropFirstRun "Bearer ".data h.data)

/-- AuthController.logout on the route POST /api/auth/logout, which the
router registers without the authenticate middleware: extract the token
from the header, revoke it in the ledger, and answer 200. -/
def logoutController (authHeader : Option String) (store : List Session)
    (now : Int) : HttpResponse × List Session :=
  let token := logoutTokenOf authHeader
  let res := revokeToken store token now
  ({ status := 200, error := "", message := "Logout successful" }, res.2)

/-- JavaScript or-null defaulting for optional text fields. -/
def jsOrNull (o : Option String) : Option String :=
  match o with
  | some s => if s = "" then none else some s
  | none => none

/-- Registration input (models/User RegisterDto). -/
structure RegisterDto where
  email : String
  password : String
  first_name : Option String
  last_name : Option String
  deriving DecidableEq, Repr

/-- Number of placeholders the registerAdmin INSERT statement declares:
dollar one through dollar five (email, password_hash, first_name,
last_name, role). -/
def registerAdminPlaceholderCount : Nat := 5

/-- The PostgreSQL bind error raised when a parameterized statement is
executed with a different number of values than it declares placeholders. -/
def bindMismatchMsg (supplied required : Nat) : String :=
  "bind message supplies " ++ toString supplied ++
    " parameters, but prepared statement requires " ++ toString required

/-- Execution of the registerAdmin INSERT: PostgreSQL first binds the
supplied values against the declared placeholders and rejects the statement
on a count mismatch, before any row is written; with five values it would
insert the row. -/
def runRegisterAdminInsert (params : List (Option String))
    (users : List User) : Except String User × List User :=
  if params.length != registerAdminPlaceholderCount then
    (.error (bindMismatchMsg params.length registerAdminPlaceholderCount), users)
  else
    match params with
    | [some email, some hash, fn, ln, some role] =>
        let u : User :=
          { id := users.length + 1
            email := email
            password_hash := hash
            first_name := fn
            last_name := ln
            role := role
            is_active := true }
        (.ok u, users ++ [u])
    | _ => (.error "could not determine data type of parameter", users)

/-- AuthService.registerAdmin up to the INSERT: check for an existing admin
with the email, hash the password, then run the INSERT whose SQL declares
five placeholders while the code supplies only four values (email, hash,
first name or null, last name or null — the role value is missing).
Returns the thrown or returned value and the users table afterwards. -/
def registerAdmin (bcryptHash : String → String) (users : List User)
    (data : RegisterDto) : Except String User × List User :=
  if 0 < (users.filter (fun u => u.email == data.email && u.role == "admin")).length
  then (.error "Admin with this email already exists", users)
  else
    let passwordHash := bcryptHash data.password
    runRegisterAdminInsert
      [some data.email, some passwordHash, jsOrNull data.first_name,
        jsOrNull data.last_name]
      users

/-- The status code the purchase controller catch block picks by substring
matching: 404 when the message includes not found, 400 when it includes
available, 500 otherwise. -/
def purchaseErrorStatus (m : String) : Nat :=
  if jsIncludes m "not found" then 404
  else if jsIncludes m "available" then 400
  else 500

/-- The error field the purchase controller pairs with each status code. -/
def purchaseErrorName (status : Nat) : String :=
  if status == 404 then "Not found"
  else if status == 400 then "Bad request"
  else "Internal server error"

/-- EventController.purchaseTickets: 401 without an authenticated user, 400
on an unparsable event id, 400 on a missing quantity or a quantity below 1
(a quantity of 0 is also falsy), otherwise run the service transaction and
map success to 200 and a thrown message to a status by substring matching.
Returns the response and the committed database afterwards. -/
def purchaseController (f : FaultSpec) (db : Db) (user : Option AuthPayload)
    (eventIdParam : Option Nat) (quantity : Option Int) : HttpResponse × Db :=
  match user with
  | none =>
      ({ status := 401, error := "Unauthorized", message := "Authentication required" },
        db)
  | some u =>
      match eventIdParam with
      | none =>
          ({ status := 400, error := "Validation error", message := "Invalid event ID" },
            db)
      | some eventId =>
          match quantity with
          | none =>
              ({ status := 400, error := "Validation error"
                 message := "Quantity must be at least 1" }, db)
          | some q =>
              if q < 1 then
                ({ status := 400, error := "Validation error"
                   message := "Quantity must be at least 1" }, db)
              else
                match purchaseTickets f db eventId q u.userId with
                | (.ok _, db') =>
                    ({ status := 200, error := ""
                       message := "Successfully purchased " ++ toString q ++ " ticket(s)" },
                      db')
                | (.error m, db') =>
                    ({ status := purchaseErrorStatus m
                       error := purchaseErrorName (purchaseErrorStatus m)
                       message := m }, db')

/-- Event creation input (models/Event CreateEventDto, fields the embedded
Event row carries). -/
structure CreateEventDto where
  title : String
  total_tickets : Int
  price : Int
  status : Option EventStatus
  deriving DecidableEq, Repr

/-- Fresh serial id for an events insert: one more than the largest id in
the table. -/
def nextEventId (db : Db) : Nat :=
  (db.events.map (fun e => e.id)).foldr max 0 + 1

/-- The new-row CHECK constraints of the events table from migrations.ts:
total_tickets, available_tickets and price must be nonnegative. -/
def eventRowChecksOk (e : Event) : Bool :=
  !(e.total_tickets < 0) && !(e.available_tickets < 0) && !(e.price < 0)

/-- The message of a violated events-table CHECK constraint. -/
def eventCheckViolationMsg : String :=
  "new row for relation events violates check constraint"

/-- EventService.createEvent: INSERT a row whose available_tickets value is
the same parameter as total_tickets (the SQL uses placeholder five twice),
with status defaulting to upcoming; PostgreSQL rejects the row when a CHECK
constraint fails. -/
def createEvent (db : Db) (data : CreateEventDto) :
    Except String Event × Db :=
  let ev : Event :=
    { id := nextEventId db
      title := data.title
      total_tickets := data.total_tickets
      available_tickets := data.total_tickets
      price := data.price
      status := data.status.getD .upcoming }
  if !eventRowChecksOk ev then (.error eventCheckViolationMsg, db)
  else (.ok ev, { db with events := db.events ++ [ev] })

/-- Event update input (models/Event UpdateEventDto, fields the embedded
Event row carries). -/
structure UpdateEventDto where
  title : Option String
  total_tickets : Option Int
  available_tickets : Option Int
  price : Option Int
  status : Option EventStatus
  deriving DecidableEq, Repr

/-- Whether the dto produces an empty SET list, in which case updateEvent
just re-reads the row. -/
def UpdateEventDto.isEmpty (d : UpdateEventDto) : Bool :=
  d.title.isNone && d.total_tickets.isNone && d.available_tickets.isNone &&
    d.price.isNone && d.status.isNone

/-- One row as rewritten by the UPDATE statement updateEvent builds: each
mentioned column is set to its parameter value; availAssign is the resolved
available_tickets assignment (the directly supplied value, or the value
recomputed from the total_tickets adjustment), a single constant for the
whole statement. -/
def eventRowUpdate (data : UpdateEventDto) (availAssign : Option Int)
    (e : Event) : Event :=
  { e with
    title := data.title.getD e.title
    total_tickets := data.total_tickets.getD e.total_tickets
    available_tickets := availAssign.getD e.available_tickets
    price := data.price.getD e.price
    status := data.status.getD e.status }

/-- Execute the UPDATE ... WHERE id = id RETURNING * statement: every row
whose id matches is rewritten; a CHECK violation on any rewritten row
rejects the whole statement; otherwise the table is replaced and the first
updated row (or null) is returned. -/
def applyEventUpdate (db : Db) (id : Nat) (data : UpdateEventDto)
    (availAssign : Option Int) : Except String (Option Event) × Db :=
  if db.events.any (fun e => e.id == id && !eventRowChecksOk (eventRowUpdate data availAssign e))
  then (.error eventCheckViolationMsg, db)
  else
    let db' : Db :=
      { db with
        events := db.events.map (fun e =>
          if e.id == id then eventRowUpdate data availAssign e else e) }
    (.ok (getEventById db' id), db')

/-- The PostgreSQL error for a SET list naming the same column twice, which
updateEvent builds when the dto carries both total_tickets and
available_tickets. -/
def multipleAssignMsg : String :=
  "multiple assignments to same column available_tickets"

/-- EventService.updateEvent: an empty dto re-reads the row; a dto with
total_tickets first re-fetches the current row (throwing when it is
missing), adjusts available_tickets by the capacity delta clamped at zero,
and assigns both columns (adding a second available_tickets assignment when
the dto also carries one, which PostgreSQL rejects); a dto without
total_tickets assigns available_tickets only when supplied; then the UPDATE
runs.  Returns the thrown or returned value and the database afterwards. -/
def updateEvent (db : Db) (id : Nat) (data : UpdateEventDto) :
    Except String (Option Event) × Db :=
  if data.isEmpty then (.ok (getEventById db id), db)
  else
    match data.total_tickets with
    | some newTotal =>
        match getEventById db id with
        | none => (.error "Event not found", db)
        | some currentEvent =>
            let adjustment := newTotal - currentEvent.total_tickets
            let newAvailable := max 0 (currentEvent.available_tickets + adjustment)
            if data.available_tickets.isSome then (.error multipleAssignMsg, db)
            else applyEventUpdate db id data (some newAvailable)
    | none => applyEventUpdate db id data data.available_tickets

/-- The inventory invariant of the spec for one event row. -/
def eventInvariantB (e : Event) : Bool :=
  0 ≤ e.available_tickets && e.available_tickets ≤ e.total_tickets

/-- The inventory invariant for a whole database. -/
def DbInvariant (db : Db) : Prop :=
  ∀ e ∈ db.events, 0 ≤ e.available_tickets ∧ e.available_tickets ≤ e.total_tickets

instance (db : Db) : Decidable (DbInvariant db) :=
  inferInstanceAs (Decidable (∀ e ∈ db.events,
    0 ≤ e.available_tickets ∧ e.available_tickets ≤ e.total_tickets))

/-- Primary-key uniqueness of event ids (id SERIAL PRIMARY KEY). -/
def UniqueEventIds (db : Db) : Prop :=
  (db.events.map (fun e => e.id)).Nodup

instance (db : Db) : Decidable (UniqueEventIds db) :=
  inferInstanceAs (Decidable ((db.events.map (fun e : Event => e.id)).Nodup))

/-- Projection of an event row to its remaining inventory. -/
def availOf (db : Db) (i : Nat) : Option Int :=
  (getEventById db i).map (fun e => e.available_tickets)

section ConcreteInstances

/-- An upcoming event with five of five tickets left. -/
def gigEvent : Event :=
  { id := 1, title := "Gig", total_tickets := 5, available_tickets := 5
    price := 100, status := .upcoming }

/-- A one-event database used as concrete input. -/
def gigDb : Db :=
  { events := [gigEvent], tickets := [] }

/-- The same event already completed. -/
def gigDoneDb : Db :=
  { events := [{ gigEvent with status := .completed }], tickets := [] }

/-- The same event with only two tickets left. -/
def gigLowDb : Db :=
  { events := [{ gigEvent with available_tickets := 2 }], tickets := [] }

/-- Fault injection on the post-commit re-fetch only. -/
def refetchFault : FaultSpec :=
  { noFaults with refetchFails := true }

/-- An authenticated caller for concrete controller inputs. -/
def alicePayload : AuthPayload :=
  { userId := 7, email := "alice@example.com", role := "user" }

end ConcreteInstances

/-- C3: the claim says a wrong event status (completed or cancelled) yields
a 400 response, never 5xx.  On a completed event with enough inventory the
service throws the wrong-status message, which contains neither the string
not found nor the string available, so the controller substring mapping
falls through to 500: the code contradicts the claim (and the not-found and
capacity mappings behave as claimed, 404 and 400). -/
theorem purchase_wrong_status_maps_to_500 :
    (purchaseController noFaults gigDoneDb (some alicePayload) (some 1) (some 2)).1 =
      { status := 500, error := "Internal server error"
        message := "Cannot purchase tickets for completed event" } ∧
    (purchaseController noFaults gigDb (some alicePayload) (some 2) (some 2)).1.status = 404 ∧
    (purchaseController noFaults gigLowDb (some alicePayload) (some 1) (some 3)).1 =
      { status := 400, error := "Bad request"
        message := "Not enough tickets available. Available: 2, Requested: 3" } := by
  decide

/-- C1 counterexample: an internal fault on the post-commit re-fetch of the
event makes the purchase attempt fail (the caller sees an error), yet the
database is not rolled back to its pre-attempt state: the decrement and the
ticket rows were already committed. -/
theorem purchase_postcommit_fault_mutates_state :
    isOkB (purchaseTickets refetchFault gigDb 1 3 7).1 = false ∧
    (purchaseTickets refetchFault gigDb 1 3 7).2 ≠ gigDb ∧
    availOf (purchaseTickets refetchFault gigDb 1 3 7).2 1 = some 2 := by
  decide

/-- C7 counterexample: an admin update that sets available_tickets directly
is applied without comparison against total_tickets, so it can leave
available_tickets above total_tickets, breaking the inventory invariant
that held before the update. -/
theorem update_can_break_inventory_invariant :
    DbInvariant gigDb ∧
    isOkB (updateEvent gigDb 1
      { title := none, total_tickets := none, available_tickets := some 6
        price := none, status := none }).1 = true ∧
    ¬ DbInvariant (updateEvent gigDb 1
      { title := none, total_tickets := none, available_tickets := some 6
        price := none, status := none }).2 := by
  decide

/-- C9 counterexample: the router registers POST /api/auth/logout without
the authenticate middleware, so a request with no Authorization header at
all is not rejected with 401; the controller answers 200 Logout
successful. -/
theorem logout_without_auth_returns_200 :
    (logoutController none [] 0).1 =
      { status := 200, error := "", message := "Logout successful" } ∧
    (logoutController none [] 0).1.status ≠ 401 := by
  decide

section C6Concrete

/-- A deactivated user. -/
def carolUser : User :=
  { id := 3, email := "carol@example.com", password_hash := "hash"
    first_name := none, last_name := none, role := "user", is_active := false }

/-- A live, unrevoked ledger row for a token of the deactivated user. -/
def carolStore : List Session :=
  [{ id := 1, user_id := 3, token_hash := hashToken "caroltok", expires_at := 100
     is_revoked := false, revoked_at := none, last_used_at := 0 }]

/-- A verifier that accepts exactly the token issued to the deactivated
user, decoding her identity. -/
def carolVerify : String → JwtResult := fun t =>
  if t == "caroltok" then
    .ok { userId := 3, email := "carol@example.com", role := "user" }
  else .malformed

end C6Concrete

/-- C6 counterexample: the authenticate middleware checks only the token
signature and the session ledger and never reads the users table, so a
request bearing a valid, unrevoked token of a user whose is_active flag is
false is admitted, contradicting the claim that no such request is admitted
while the flag is false. -/
theorem gate_admits_inactive_user_token :
    carolUser.is_active = false ∧
    (authenticate carolVerify false (some "Bearer caroltok") carolStore 10).1 =
      .admitted { userId := carolUser.id, email := carolUser.email, role := "user" } := by
  decide

section C8Concrete

/-- A live ledger row for the token used to exercise the touch fault. -/
def bobStore : List Session :=
  [{ id := 1, user_id := 8, token_hash := hashToken "bobtok", expires_at := 100
     is_revoked := false, revoked_at := none, last_used_at := 0 }]

/-- A verifier accepting the token used to exercise the touch fault. -/
def bobVerify : String → JwtResult := fun t =>
  if t == "bobtok" then
    .ok { userId := 8, email := "bob@example.com", role := "user" }
  else .malformed

end C8Concrete

/-- C8: the claim says a failure of the last_used_at touch does not change
the outcome of an admitted request.  In the code the touch is awaited
inside the try block, so a rejected touch UPDATE falls into the catch and
the middleware answers 500 instead of calling next: the very same request
that is admitted when the touch succeeds is turned into an Internal server
error response when it fails. -/
theorem touch_failure_rejects_request_500 :
    (authenticate bobVerify false (some "Bearer bobtok") bobStore 10).1 =
      .admitted { userId := 8, email := "bob@example.com", role := "user" } ∧
    (authenticate bobVerify true (some "Bearer bobtok") bobStore 10).1 =
      .rejected 500 "Internal server error" "Token verification failed" := by
  decide

/-- After the revoke UPDATE, every ledger row whose hash matches the token
is marked revoked, so the ledger check for that token fails, at every later
time and whether or not a row existed at all. -/
lemma isTokenValid_after_revoke (store : List Session) (t : String)
    (revNow now : Int) :
    isTokenValid (revokeToken store t revNow).2 t now = false := by
  induction store with
  | nil => rfl
  | cons s rest ih =>
      simp only [revokeToken, List.map_cons] at ih ⊢
      by_cases hh : s.token_hash == hashToken t
      · by_cases hr : s.is_revoked
        · simp [isTokenValid, findSessionByToken, List.find?, hh, hr]
        · simp [isTokenValid, findSessionByToken, List.find?, hh, hr]
      · simpa [isTokenValid, findSessionByToken, List.find?, hh] using ih

/-- C5: for every token, after revoke the Authentication Gate rejects every
subsequent request presenting it with 401: whatever the signature check
says (valid payload, expired, malformed), and whether or not the touch
would fail, the request never gets past the 401 family, because for a
decodable token the ledger check consults the revoked row and fails
regardless of the token expiry the verifier saw. -/
theorem revoked_token_always_rejected_401 :
    ∀ (verify : String → JwtResult) (touchFails : Bool) (store : List Session)
      (h : String) (revNow now : Int),
      ∃ msg, (authenticate verify touchFails (some h)
          (revokeToken store (extractToken h) revNow).2 now).1 =
        .rejected 401 "Unauthorized" msg := by
  intro verify tf store h revNow now
  by_cases hh : h = ""
  · exact ⟨"No token provided", by simp [authenticate, hh]⟩
  · by_cases ht : extractToken h = ""
    · exact ⟨"Invalid token format", by simp [authenticate, hh, ht]⟩
    · cases hv : verify (extractToken h) with
      | expired => exact ⟨"Token expired", by simp [authenticate, hh, ht, hv]⟩
      | malformed => exact ⟨"Invalid token", by simp [authenticate, hh, ht, hv]⟩
      | ok payload =>
          exact ⟨"Token has been revoked",
            by simp [authenticate, hh, ht, hv, isTokenValid_after_revoke]⟩

/-- C9 amended: the logout endpoint is wired without the authenticate
middleware, so it requires no authentication: every request, with or
without a header, is answered 200 Logout successful, and the token the
controller extracts from the header (the empty string when the header is
missing) is no longer honored by the ledger afterwards. -/
theorem logout_always_200_and_revokes :
    ∀ (authHeader : Option String) (store : List Session) (now later : Int),
      (logoutController authHeader store now).1 =
        { status := 200, error := "", message := "Logout successful" } ∧
      isTokenValid (logoutController authHeader store now).2
        (logoutTokenOf authHeader) later = false := by
  intro hdr store now later
  exact ⟨rfl, isTokenValid_after_revoke store (logoutTokenOf hdr) now later⟩

/-- C10: for every input, AuthService.registerAdmin throws and leaves the
users table unchanged: either an admin with the email already exists, or
the INSERT is executed with four values against five declared placeholders
and PostgreSQL rejects the bind before writing anything, so the endpoint
always responds with an error and never creates a user. -/
theorem registerAdmin_always_errors :
    ∀ (bcryptHash : String → String) (users : List User) (data : RegisterDto),
      isOkB (registerAdmin bcryptHash users data).1 = false ∧
      (registerAdmin bcryptHash users data).2 = users := by
  intro bh users data
  unfold registerAdmin
  split
  · exact ⟨rfl, rfl⟩
  · unfold runRegisterAdminInsert
    simp [registerAdminPlaceholderCount, isOkB]

section C6Concrete2

/-- A second deactivated user, for the gate half of the amended claim. -/
def daveStore : List Session :=
  [{ id := 1, user_id := 4, token_hash := hashToken "davetok", expires_at := 100
     is_revoked := false, revoked_at := none, last_used_at := 0 }]

/-- A verifier accepting exactly the deactivated user's token. -/
def daveVerify : String → JwtResult := fun t =>
  if t == "davetok" then
    .ok { userId := 4, email := "dave@example.com", role := "user" }
  else .malformed

end C6Concrete2

/-- C6 amended: inactive users cannot log in — for every user whose
is_active flag is false, the login endpoint answers 401 — but the
Authentication Gate does not read the users table, so a previously issued
valid, unrevoked token of a deactivated user is still admitted (second
conjunct exhibits such an admitted request). -/
theorem inactive_login_rejected_401 :
    (∀ (bcryptCompare : String → String → Bool) (sign : AuthPayload → String)
        (users : List User) (store : List Session)
        (email password sanitized : String) (user : User) (now : Int),
        validateAndSanitizeEmail email = .ok sanitized →
        password ≠ "" →
        trimStr password ≠ "" →
        users.find? (fun u => u.email == sanitized) = some user →
        user.is_active = false →
        (loginController bcryptCompare sign users store email password now).1.status
          = 401) ∧
    (authenticate daveVerify false (some "Bearer davetok") daveStore 10).1 =
      .admitted { userId := 4, email := "dave@example.com", role := "user" } := by
  constructor
  · intro bc sign users store email password sanitized user now
      hval hp1 hp2 hfind hact
    unfold loginController
    rw [hval]
    have hcond : (decide (password = "") || decide (trimStr password = "")) = false := by
      simp [hp1, hp2]
    simp only [hcond, Bool.false_eq_true, if_false]
    unfold loginService
    rw [hfind]
    simp only [hact, Bool.not_false, if_true]
    decide
  · decide

/-- Witness for the login half of the C6 amended theorem at a concrete
deactivated account. -/
theorem inactive_login_rejected_401_witness :
    (loginController (fun _ _ => true) (fun _ => "tok")
        [{ id := 9, email := "erin@example.com", password_hash := "h"
           first_name := none, last_name := none, role := "user"
           is_active := false }] [] "erin@example.com" "pw" 0).1.status = 401 :=
  inactive_login_rejected_401.1 (fun _ _ => true) (fun _ => "tok")
    [{ id := 9, email := "erin@example.com", password_hash := "h"
       first_name := none, last_name := none, role := "user"
       is_active := false }] [] "erin@example.com" "pw" "erin@example.com"
    { id := 9, email := "erin@example.com", password_hash := "h"
      first_name := none, last_name := none, role := "user"
      is_active := false } 0 (by rfl) (by decide) (by decide) (by decide) rfl

/-- A successful insert loop keeps the committed state and appends exactly
the per-unit ticket rows to the transaction overlay. -/
lemma insertLoop_ok_shape (f : FaultSpec) (e u : Nat) (ti : String) (pr : Int) :
    ∀ (n i : Nat) (com d : Db) (c' : Conn),
      insertLoop f e u ti pr n i ⟨com, some d⟩ = .ok c' →
      c' = ⟨com, some { d with tickets := d.tickets ++ purchasedTickets e u ti pr n i }⟩ := by
  intro n
  induction n with
  | zero =>
      intro i com d c' h
      simp only [insertLoop] at h
      cases h
      simp [purchasedTickets]
  | succ k ih =>
      intro i com d c' h
      simp only [insertLoop] at h
      by_cases hf : f.insertFails i
      · simp [hf] at h
      · simp only [hf, if_false, Bool.false_eq_true] at h
        have h' := ih (i + 1) com (insertTicket d (purchasedTicket e u ti pr i)) c'
        simp only [Conn.view, Conn.write, Option.getD_some] at h
        have := h' h
        simp only [insertTicket] at this
        rw [this]
        simp [purchasedTickets, List.append_assoc]

/-- A failed insert loop keeps the committed state: the failure is carried
on a connection whose transaction is still open over the same committed
database. -/
lemma insertLoop_error_shape (f : FaultSpec) (e u : Nat) (ti : String) (pr : Int) :
    ∀ (n i : Nat) (com d : Db) (m : String) (c' : Conn),
      insertLoop f e u ti pr n i ⟨com, some d⟩ = .error (m, c') →
      ∃ d', c' = ⟨com, some d'⟩ := by
  intro n
  induction n with
  | zero => intro i com d m c' h; simp [insertLoop] at h
  | succ k ih =>
      intro i com d m c' h
      simp only [insertLoop] at h
      by_cases hf : f.insertFails i
      · simp only [hf, if_true] at h
        cases h
        exact ⟨d, rfl⟩
      · simp only [hf, if_false, Bool.false_eq_true] at h
        simp only [Conn.view, Conn.write, Option.getD_some] at h
        exact ih (i + 1) com (insertTicket d (purchasedTicket e u ti pr i)) m c' h

/-- C1 amended: every purchase failure at or before COMMIT rolls the
transaction back — the committed database after a failed attempt whose
fault is not on the post-commit re-fetch is exactly the database before the
attempt (so in particular a capacity-error purchase leaves
available_tickets and the tickets table unchanged). -/
theorem purchase_failure_before_refetch_rolls_back :
    ∀ (f : FaultSpec) (db : Db) (eventId : Nat) (q : Int) (userId : Nat)
      (r : Except String (Option Event)) (db' : Db),
      f.refetchFails = false →
      purchaseTickets f db eventId q userId = (r, db') →
      isOkB r = false →
      db' = db := by
  intro f db eventId q userId r db' hrf hEq hFail
  unfold purchaseTickets at hEq
  simp only [Conn.beginTx, Conn.rollbackTx, Conn.view, Conn.commitTx,
    Option.getD_some] at hEq
  by_cases hs : f.selectFails
  · simp only [hs, if_true] at hEq
    cases hEq; rfl
  · simp only [hs, if_false, Bool.false_eq_true] at hEq
    cases hev : getEventById db eventId with
    | none =>
        rw [hev] at hEq
        cases hEq; rfl
    | some event =>
        rw [hev] at hEq
        by_cases hav : event.available_tickets < q
        · simp only [hav, if_true] at hEq
          cases hEq; rfl
        · simp only [hav, if_false] at hEq
          by_cases hst : (event.status != EventStatus.upcoming &&
              event.status != EventStatus.live) = true
          · simp only [hst, if_true] at hEq
            cases hEq; rfl
          · simp only [hst, if_false, Bool.false_eq_true] at hEq
            by_cases hu : f.updateFails
            · simp only [hu, if_true] at hEq
              cases hEq; rfl
            · simp only [hu, if_false, Bool.false_eq_true] at hEq
              by_cases hneg : event.available_tickets - q < 0
              · simp only [hneg, if_true] at hEq
                cases hEq; rfl
              · simp only [hneg, if_false] at hEq
                simp only [Conn.write] at hEq
                cases hloop : insertLoop f eventId userId event.title event.price
                    q.toNat 0 ⟨db, some (setAvailable db eventId
                      (event.available_tickets - q))⟩ with
                | error p =>
                    obtain ⟨m, c'⟩ := p
                    rw [hloop] at hEq
                    obtain ⟨d', hd'⟩ := insertLoop_error_shape f eventId userId
                      event.title event.price q.toNat 0 db _ m c' hloop
                    subst hd'
                    cases hEq; rfl
                | ok c2 =>
                    rw [hloop] at hEq
                    have hc2 := insertLoop_ok_shape f eventId userId event.title
                      event.price q.toNat 0 db _ c2 hloop
                    subst hc2
                    by_cases hc : f.commitFails
                    · simp only [hc, if_true] at hEq
                      cases hEq; rfl
                    · simp only [hc, if_false, Bool.false_eq_true, hrf] at hEq
                      cases hEq
                      simp [isOkB] at hFail

/-- Witness for the C1 amended theorem: the concrete capacity-error attempt
of the spec scenario (two tickets left, three requested) leaves the
database unchanged. -/
theorem purchase_failure_rollback_witness :
    (purchaseTickets noFaults gigLowDb 1 3 7).2 = gigLowDb :=
  purchase_failure_before_refetch_rolls_back noFaults gigLowDb 1 3 7
    (purchaseTickets noFaults gigLowDb 1 3 7).1
    (purchaseTickets noFaults gigLowDb 1 3 7).2
    rfl rfl (by decide)

/-- The fault-free insert loop succeeds, keeping the committed state and
appending exactly the per-unit ticket rows to the overlay. -/
lemma insertLoop_noFaults (e u : Nat) (ti : String) (pr : Int) :
    ∀ (n i : Nat) (com d : Db),
      insertLoop noFaults e u ti pr n i ⟨com, some d⟩ =
        .ok ⟨com, some { d with tickets := d.tickets ++ purchasedTickets e u ti pr n i }⟩ := by
  intro n
  induction n with
  | zero => intro i com d; simp [insertLoop, purchasedTickets]
  | succ k ih =>
      intro i com d
      have hf : noFaults.insertFails i = false := rfl
      simp only [insertLoop, hf, Bool.false_eq_true, if_false,
        Conn.view, Conn.write, Option.getD_some, insertTicket]
      rw [ih]
      simp [purchasedTickets, List.append_assoc]

/-- Closed form of the fault-free purchase: the three business checks in
source order, then the database with the decremented event row and the
appended per-unit ticket rows, returning the re-fetched event. -/
lemma purchase_noFaults_eq (db : Db) (eventId : Nat) (q : Int) (userId : Nat) :
    purchaseTickets noFaults db eventId q userId =
      match getEventById db eventId with
      | none => (.error "Event not found", db)
      | some event =>
          if event.available_tickets < q then
            (.error (capacityMsg event.available_tickets q), db)
          else if event.status != EventStatus.upcoming &&
              event.status != EventStatus.live then
            (.error (wrongStatusMsg event.status), db)
          else
            let db2 : Db :=
              { events := (setAvailable db eventId (event.available_tickets - q)).events
                tickets := db.tickets ++
                  purchasedTickets eventId userId event.title event.price q.toNat 0 }
            (.ok (getEventById db2 eventId), db2) := by
  unfold purchaseTickets
  have hsel : noFaults.selectFails = false := rfl
  have hupd : noFaults.updateFails = false := rfl
  have hcom : noFaults.commitFails = false := rfl
  have href : noFaults.refetchFails = false := rfl
  simp only [hsel, hupd, hcom, href, Bool.false_eq_true, if_false,
    Conn.beginTx, Conn.rollbackTx, Conn.view, Conn.commitTx, Conn.write,
    Option.getD_some]
  cases hev : getEventById db eventId with
  | none => rfl
  | some event =>
      by_cases hav : event.available_tickets < q
      · simp [hav]
      · simp only [hav, if_false]
        by_cases hst : (event.status != EventStatus.upcoming &&
            event.status != EventStatus.live) = true
        · simp [hst]
        · simp only [hst, if_false, Bool.false_eq_true]
          have hneg : ¬(event.available_tickets - q < 0) := by omega
          simp only [hneg, if_false]
          rw [insertLoop_noFaults]
          simp [Conn.commitTx, setAvailable]

/-- One purchase request in a serialized schedule. -/
structure PurchaseRequest where
  eventId : Nat
  quantity : Int
  userId : Nat
  deriving DecidableEq, Repr

/-- Run a list of purchase requests one after another — the serial orders
the row-level FOR UPDATE lock admits for concurrent purchasers — returning
the final database and the per-request success flags. -/
def runPurchases (db : Db) : List PurchaseRequest → Db × List Bool
  | [] => (db, [])
  | r :: rest =>
      let p := purchaseTickets noFaults db r.eventId r.quantity r.userId
      let tail := runPurchases p.2 rest
      (tail.1, isOkB p.1 :: tail.2)

/-- Total quantity sold on one event: the sum of the quantities of the
requests for it whose flag is success. -/
def soldOn (i : Nat) : List PurchaseRequest → List Bool → Int
  | r :: rs, b :: bs =>
      (if b && r.eventId == i then r.quantity else 0) + soldOn i rs bs
  | _, _ => 0

/-- Total quantity a list of requests asks for. -/
def sumQuantities (reqs : List PurchaseRequest) : Int :=
  (reqs.map (fun r => r.quantity)).sum

/-- One unfolding step of the list search. -/
lemma find?_cons_eq {α : Type} (p : α → Bool) (a : α) (l : List α) :
    (a :: l).find? p = if p a then some a else l.find? p := by
  cases h : p a <;> simp [List.find?, h]

/-- Updating the availability of an event leaves the lookup of the row with
the same id at the updated value. -/
lemma find_setAvail_self (l : List Event) (i : Nat) (v : Int) (ev : Event)
    (h : l.find? (fun e => e.id == i) = some ev) :
    (l.map (fun e => if e.id == i then { e with available_tickets := v } else e)).find?
      (fun e => e.id == i) = some { ev with available_tickets := v } := by
  induction l with
  | nil => simp at h
  | cons a l ih =>
      rw [find?_cons_eq] at h
      simp only [List.map_cons]
      rw [find?_cons_eq]
      cases ha : a.id == i with
      | true =>
          rw [ha] at h
          simp only [if_true] at h
          cases h
          simp [ha]
      | false =>
          rw [ha] at h
          simp only [Bool.false_eq_true, if_false] at h
          simp only [ha, Bool.false_eq_true, if_false]
          exact ih h

/-- Updating the availability of one event does not change the lookup of a
row with a different id. -/
lemma find_setAvail_ne (l : List Event) (i j : Nat) (v : Int) (hij : j ≠ i) :
    (l.map (fun e => if e.id == j then { e with available_tickets := v } else e)).find?
      (fun e => e.id == i) = l.find? (fun e => e.id == i) := by
  induction l with
  | nil => rfl
  | cons a l ih =>
      simp only [List.map_cons]
      rw [find?_cons_eq, find?_cons_eq]
      cases haj : a.id == j with
      | true =>
          have hai : (a.id == i) = false := by
            simp only [beq_iff_eq] at haj ⊢
            simp [haj, hij]
          simp only [haj, if_true, hai, Bool.false_eq_true, if_false]
          simpa [hai] using ih
      | false =>
          simp only [haj, Bool.false_eq_true, if_false]
          cases hai : a.id == i with
          | true => simp [hai]
          | false => simpa [hai] using ih

/-- Effect of one serialized purchase on the availability of one event: a
successful purchase for that event subtracts its quantity, everything else
leaves it unchanged, and nonnegativity is preserved. -/
lemma purchase_step_avail (db : Db) (i j u : Nat) (q a : Int)
    (ha : availOf db i = some a) (h0 : 0 ≤ a) :
    availOf (purchaseTickets noFaults db j q u).2 i =
      some (a - (if isOkB (purchaseTickets noFaults db j q u).1 && (j == i)
        then q else 0)) ∧
    0 ≤ a - (if isOkB (purchaseTickets noFaults db j q u).1 && (j == i)
        then q else 0) := by
  rw [purchase_noFaults_eq]
  cases hev : getEventById db j with
  | none => simpa [isOkB, ha] using h0
  | some event =>
      by_cases hav : event.available_tickets < q
      · simpa [hav, isOkB, ha] using h0
      · simp only [hav, if_false]
        by_cases hst : (event.status != EventStatus.upcoming &&
            event.status != EventStatus.live) = true
        · simpa [hst, isOkB, ha] using h0
        · simp only [hst, if_false, Bool.false_eq_true, isOkB, Bool.true_and]
          by_cases hji : (j == i) = true
          · have hji' : j = i := by simpa using hji
            subst hji'
            have hevi : getEventById db j = some event := hev
            have haev : event.available_tickets = a := by
              unfold availOf at ha
              rw [hevi] at ha
              simpa using ha
            simp only [hji, if_true]
            constructor
            · unfold availOf getEventById at *
              unfold setAvailable
              simp only []
              rw [find_setAvail_self db.events j (event.available_tickets - q) event hev]
              simp [haev]
            · omega
          · simp only [hji, if_false, Bool.false_eq_true, sub_zero]
            refine ⟨?_, h0⟩
            unfold availOf getEventById setAvailable at *
            simp only []
            rw [find_setAvail_ne db.events i j (event.available_tickets - q)
              (by simpa using hji)]
            exact ha

/-- Availability after a serialized schedule: the initial stock minus the
quantities of the successful requests for the event, never negative. -/
lemma runPurchases_avail :
    ∀ (reqs : List PurchaseRequest) (db : Db) (i : Nat) (a : Int),
      availOf db i = some a → 0 ≤ a →
      availOf (runPurchases db reqs).1 i =
        some (a - soldOn i reqs (runPurchases db reqs).2) ∧
      0 ≤ a - soldOn i reqs (runPurchases db reqs).2 := by
  intro reqs
  induction reqs with
  | nil => intro db i a ha h0; simpa [runPurchases, soldOn] using ⟨ha, h0⟩
  | cons r rest ih =>
      intro db i a ha h0
      obtain ⟨ha', h0'⟩ := purchase_step_avail db i r.eventId r.userId r.quantity a ha h0
      obtain ⟨hfin, h0fin⟩ := ih
        (purchaseTickets noFaults db r.eventId r.quantity r.userId).2 i _ ha' h0'
      simp only [runPurchases, soldOn]
      constructor
      · rw [hfin]; congr 1; ring
      · have := h0fin; linarith [h0fin]

/-- C2: for every event with k tickets left, every serialized schedule of
concurrent purchase requests for it that jointly ask for more than k (the
serial orders are exactly what the FOR UPDATE row lock admits) sells at
most k tickets in total, and the availability of the event is never
negative after any prefix of the schedule. -/
theorem purchase_serialized_never_oversells :
    ∀ (reqs : List PurchaseRequest) (db : Db) (i : Nat) (k : Int),
      availOf db i = some k → 0 ≤ k →
      (∀ r ∈ reqs, r.eventId = i) →
      k < sumQuantities reqs →
      soldOn i reqs (runPurchases db reqs).2 ≤ k ∧
      ∀ pre post, reqs = pre ++ post →
        ∃ a, availOf (runPurchases db pre).1 i = some a ∧ 0 ≤ a := by
  intro reqs db i k hk h0 _ _
  constructor
  · have := (runPurchases_avail reqs db i k hk h0).2
    linarith
  · intro pre post _
    obtain ⟨hfin, h0fin⟩ := runPurchases_avail pre db i k hk h0
    exact ⟨_, hfin, h0fin⟩

/-- Witness for the C2 theorem: two tickets left and two serialized
requests for three in total (two then one more than remains). -/
theorem purchase_serialized_never_oversells_witness :
    soldOn 1 [⟨1, 2, 7⟩, ⟨1, 2, 8⟩]
        (runPurchases gigLowDb [⟨1, 2, 7⟩, ⟨1, 2, 8⟩]).2 ≤ 2 ∧
    ∀ pre post, ([⟨1, 2, 7⟩, ⟨1, 2, 8⟩] : List PurchaseRequest) = pre ++ post →
      ∃ a, availOf (runPurchases gigLowDb pre).1 1 = some a ∧ 0 ≤ a :=
  purchase_serialized_never_oversells [⟨1, 2, 7⟩, ⟨1, 2, 8⟩] gigLowDb 1 2
    (by decide) (by decide) (by decide) (by decide)

/-- The insert loop produces one ticket row per unit. -/
lemma purchasedTickets_length (e u : Nat) (ti : String) (pr : Int) :
    ∀ n i, (purchasedTickets e u ti pr n i).length = n := by
  intro n
  induction n with
  | zero => intro i; rfl
  | succ k ih => intro i; simp [purchasedTickets, ih]

/-- Every ticket row the insert loop produces carries quantity one, the
event price as price snapshot, and the event and purchaser ids. -/
lemma purchasedTickets_fields (e u : Nat) (ti : String) (pr : Int) :
    ∀ n i, ∀ t ∈ purchasedTickets e u ti pr n i,
      t.quantity = 1 ∧ t.purchase_price = pr ∧ t.event_id = e ∧ t.user_id = u := by
  intro n
  induction n with
  | zero => intro i t ht; simp [purchasedTickets] at ht
  | succ k ih =>
      intro i t ht
      simp only [purchasedTickets, List.mem_cons] at ht
      cases ht with
      | inl h => subst h; exact ⟨rfl, rfl, rfl, rfl⟩
      | inr h => exact ih (i + 1) t h

/-- C4: a fault-free purchase of q units (q at least 1) on an event with
enough inventory and a purchasable status decrements the available count of
exactly that event by exactly q, appends exactly q ticket rows — one per
unit, each with quantity 1 and the event price as purchase_price — and
returns the re-fetched updated event. -/
theorem purchase_success_decrements_and_inserts :
    ∀ (db : Db) (eventId userId : Nat) (q : Int) (ev : Event),
      getEventById db eventId = some ev →
      1 ≤ q →
      q ≤ ev.available_tickets →
      (ev.status = EventStatus.upcoming ∨ ev.status = EventStatus.live) →
      purchaseTickets noFaults db eventId q userId =
        (.ok (some { ev with available_tickets := ev.available_tickets - q }),
          { events := db.events.map (fun e =>
              if e.id == eventId then
                { e with available_tickets := ev.available_tickets - q }
              else e)
            tickets := db.tickets ++
              purchasedTickets eventId userId ev.title ev.price q.toNat 0 }) ∧
      (purchasedTickets eventId userId ev.title ev.price q.toNat 0).length = q.toNat ∧
      (q.toNat : Int) = q ∧
      ∀ t ∈ purchasedTickets eventId userId ev.title ev.price q.toNat 0,
        t.quantity = 1 ∧ t.purchase_price = ev.price ∧
          t.event_id = eventId ∧ t.user_id = userId := by
  intro db eventId userId q ev hev hq1 hq2 hstatus
  refine ⟨?_, purchasedTickets_length eventId userId ev.title ev.price q.toNat 0,
    Int.toNat_of_nonneg (by omega),
    purchasedTickets_fields eventId userId ev.title ev.price q.toNat 0⟩
  rw [purchase_noFaults_eq, hev]
  have hav : ¬(ev.available_tickets < q) := by omega
  have hst : (ev.status != EventStatus.upcoming &&
      ev.status != EventStatus.live) = false := by
    cases hstatus with
    | inl h => simp [h]
    | inr h => simp [h]
  simp only [hav, if_false, hst, Bool.false_eq_true]
  have hfind : getEventById
      { events := (setAvailable db eventId (ev.available_tickets - q)).events
        tickets := db.tickets ++
          purchasedTickets eventId userId ev.title ev.price q.toNat 0 }
      eventId = some { ev with available_tickets := ev.available_tickets - q } := by
    unfold getEventById setAvailable at *
    exact find_setAvail_self db.events eventId (ev.available_tickets - q) ev hev
  rw [hfind]
  rfl

/-- Witness for the C4 theorem: the spec scenario, five tickets left and a
purchase of three. -/
theorem purchase_success_witness :
    purchaseTickets noFaults gigDb 1 3 7 =
      (.ok (some { gigEvent with available_tickets := 2 }),
        { events := gigDb.events.map (fun e =>
            if e.id == 1 then { e with available_tickets := 2 } else e)
          tickets := gigDb.tickets ++ purchasedTickets 1 7 "Gig" 100 3 0 }) ∧
    (purchasedTickets 1 7 "Gig" 100 3 0).length = 3 ∧
    ((3 : Int).toNat : Int) = 3 ∧
    ∀ t ∈ purchasedTickets 1 7 "Gig" 100 3 0,
      t.quantity = 1 ∧ t.purchase_price = 100 ∧ t.event_id = 1 ∧ t.user_id = 7 :=
  purchase_success_decrements_and_inserts gigDb 1 7 3 gigEvent
    (by decide) (by decide) (by decide) (Or.inl rfl)

/-- Whatever faults occur, the committed database after a purchase attempt
is either untouched or the fully committed purchase: the decremented event
row plus the per-unit ticket rows (the latter only when the availability
check passed). -/
lemma purchase_db_shape (f : FaultSpec) (db : Db) (eventId : Nat) (q : Int)
    (userId : Nat) :
    (purchaseTickets f db eventId q userId).2 = db ∨
    ∃ ev, getEventById db eventId = some ev ∧ q ≤ ev.available_tickets ∧
      (purchaseTickets f db eventId q userId).2 =
        { events := (setAvailable db eventId (ev.available_tickets - q)).events
          tickets := db.tickets ++
            purchasedTickets eventId userId ev.title ev.price q.toNat 0 } := by
  unfold purchaseTickets
  simp only [Conn.beginTx, Conn.rollbackTx, Conn.view, Conn.commitTx,
    Option.getD_some]
  by_cases hs : f.selectFails
  · simp [hs]
  · simp only [hs, if_false, Bool.false_eq_true]
    cases hev : getEventById db eventId with
    | none => exact .inl rfl
    | some event =>
        by_cases hav : event.available_tickets < q
        · simp [hav]
        · simp only [hav, if_false]
          by_cases hst : (event.status != EventStatus.upcoming &&
              event.status != EventStatus.live) = true
          · simp [hst]
          · simp only [hst, if_false, Bool.false_eq_true]
            by_cases hu : f.updateFails
            · simp [hu]
            · simp only [hu, if_false, Bool.false_eq_true]
              have hneg : ¬(event.available_tickets - q < 0) := by omega
              simp only [hneg, if_false, Conn.write]
              cases hloop : insertLoop f eventId userId event.title event.price
                  q.toNat 0 ⟨db, some (setAvailable db eventId
                    (event.available_tickets - q))⟩ with
              | error p =>
                  obtain ⟨m, c'⟩ := p
                  obtain ⟨d', hd'⟩ := insertLoop_error_shape f eventId userId
                    event.title event.price q.toNat 0 db _ m c' hloop
                  subst hd'
                  exact .inl rfl
              | ok c2 =>
                  have hc2 := insertLoop_ok_shape f eventId userId event.title
                    event.price q.toNat 0 db _ c2 hloop
                  subst hc2
                  by_cases hc : f.commitFails
                  · simp [hc]
                  · simp only [hc, if_false, Bool.false_eq_true]
                    refine .inr ⟨event, rfl, by omega, ?_⟩
                    by_cases hr : f.refetchFails
                    · simp [hr, setAvailable]
                    · simp [hr, setAvailable]

/-- With unique event ids, any member of the table that carries the looked
up id is the row the lookup found. -/
lemma find_unique_mem (l : List Event) (i : Nat) (ev x : Event)
    (hnd : (l.map (fun e => e.id)).Nodup)
    (hfind : l.find? (fun e => e.id == i) = some ev)
    (hx : x ∈ l) (hxi : x.id = i) : x = ev := by
  induction l with
  | nil => simp at hx
  | cons a l ih =>
      rw [find?_cons_eq] at hfind
      simp only [List.map_cons, List.nodup_cons] at hnd
      obtain ⟨hna, hnd'⟩ := hnd
      cases ha : a.id == i with
      | true =>
          rw [ha] at hfind
          simp only [if_true] at hfind
          cases hfind
          cases List.mem_cons.mp hx with
          | inl h => exact h
          | inr h =>
              exfalso
              apply hna
              have hei : ev.id = x.id := by
                rw [beq_iff_eq.mp ha, hxi]
              rw [hei]
              exact List.mem_map.mpr ⟨x, h, rfl⟩
      | false =>
          rw [ha] at hfind
          simp only [Bool.false_eq_true, if_false] at hfind
          cases List.mem_cons.mp hx with
          | inl h =>
              exfalso
              apply absurd ha
              subst h
              simp [hxi]
          | inr h => exact ih hnd' hfind h

/-- A purchase of at least one unit preserves the inventory invariant under
unique ids: either nothing was committed, or the one matching row was
decremented within its previous bounds. -/
lemma purchase_preserves_invariant (f : FaultSpec) (db : Db) (eventId : Nat)
    (q : Int) (userId : Nat) (hq : 1 ≤ q) (hinv : DbInvariant db)
    (hnd : UniqueEventIds db) :
    DbInvariant (purchaseTickets f db eventId q userId).2 := by
  rcases purchase_db_shape f db eventId q userId with h | ⟨ev, hev, hqa, h⟩
  · rw [h]; exact hinv
  · rw [h]
    intro e he
    simp only [setAvailable, List.mem_map] at he
    obtain ⟨x, hx, hxe⟩ := he
    by_cases hxid : (x.id == eventId) = true
    · have hxev : x = ev :=
        find_unique_mem db.events eventId ev x hnd hev hx (beq_iff_eq.mp hxid)
      rw [if_pos hxid] at hxe
      subst hxe
      subst hxev
      have := hinv x hx
      constructor
      · simpa using (by omega : (0 : Int) ≤ x.available_tickets - q)
      · simpa using (by omega : x.available_tickets - q ≤ x.total_tickets)
    · rw [if_neg hxid] at hxe
      subst hxe
      exact hinv x hx

/-- A successful UPDATE preserves the inventory invariant provided the
resolved assignment respects the upper bound whenever the new total is
nonnegative; rows the statement does not touch keep their invariant, rows
it touches passed the CHECK constraints. -/
lemma applyEventUpdate_invariant (db : Db) (id : Nat) (data : UpdateEventDto)
    (availAssign : Option Int) (hinv : DbInvariant db)
    (hok : ∀ x ∈ db.events, x.id = id →
      0 ≤ data.total_tickets.getD x.total_tickets →
      availAssign.getD x.available_tickets ≤
        data.total_tickets.getD x.total_tickets) :
    DbInvariant (applyEventUpdate db id data availAssign).2 := by
  unfold applyEventUpdate
  by_cases hany : (db.events.any fun e =>
      e.id == id && !eventRowChecksOk (eventRowUpdate data availAssign e)) = true
  · simp only [hany, if_true]
    exact hinv
  · simp only [hany, Bool.false_eq_true, if_false]
    intro e he
    simp only [List.mem_map] at he
    obtain ⟨x, hx, hxe⟩ := he
    by_cases hxid : (x.id == id) = true
    · rw [if_pos hxid] at hxe
      subst hxe
      have hchk : eventRowChecksOk (eventRowUpdate data availAssign x) = true := by
        by_contra hc
        apply hany
        refine List.any_eq_true.mpr ⟨x, hx, ?_⟩
        simp only [hxid, Bool.true_and, Bool.not_eq_true']
        exact Bool.not_eq_true _ ▸ (by simpa using hc)
      have hbounds := hchk
      unfold eventRowChecksOk at hbounds
      simp only [eventRowUpdate, Bool.and_eq_true, Bool.not_eq_true',
        decide_eq_false_iff_not, Int.not_lt] at hbounds
      obtain ⟨⟨ht0, ha0⟩, _⟩ := hbounds
      have hub := hok x hx (beq_iff_eq.mp hxid) ht0
      exact ⟨by simpa [eventRowUpdate] using ha0, by simpa [eventRowUpdate] using hub⟩
    · rw [if_neg hxid] at hxe
      subst hxe
      exact hinv x hx

/-- Event creation preserves the inventory invariant: the inserted row has
available equal to total (the INSERT reuses the same parameter), and the
CHECK constraints reject a negative total. -/
lemma createEvent_preserves_invariant (db : Db) (data : CreateEventDto)
    (hinv : DbInvariant db) : DbInvariant (createEvent db data).2 := by
  unfold createEvent
  by_cases h : eventRowChecksOk
      { id := nextEventId db, title := data.title
        total_tickets := data.total_tickets
        available_tickets := data.total_tickets, price := data.price
        status := data.status.getD EventStatus.upcoming } = true
  · simp only [h, Bool.not_true, Bool.false_eq_true, if_false]
    intro e he
    rcases List.mem_append.mp he with h1 | h2
    · exact hinv e h1
    · have h2' := List.mem_singleton.mp h2
      subst h2'
      unfold eventRowChecksOk at h
      simp only [Bool.and_eq_true, Bool.not_eq_true', decide_eq_false_iff_not,
        Int.not_lt] at h
      exact ⟨h.1.2, le_refl _⟩
  · simp only [h, Bool.not_eq_true', Bool.not_true]
    simp only [Bool.not_eq_true] at h
    simp only [h, Bool.not_false, if_true]
    exact hinv

/-- A successful UPDATE keeps every available count nonnegative: touched
rows passed the CHECK constraint, untouched rows were nonnegative
before. -/
lemma applyEventUpdate_lower (db : Db) (id : Nat) (data : UpdateEventDto)
    (availAssign : Option Int)
    (hlow : ∀ e ∈ db.events, 0 ≤ e.available_tickets) :
    ∀ e ∈ (applyEventUpdate db id data availAssign).2.events,
      0 ≤ e.available_tickets := by
  unfold applyEventUpdate
  by_cases hany : (db.events.any fun e =>
      e.id == id && !eventRowChecksOk (eventRowUpdate data availAssign e)) = true
  · simp only [hany, if_true]
    exact hlow
  · simp only [hany, Bool.false_eq_true, if_false]
    intro e he
    simp only [List.mem_map] at he
    obtain ⟨x, hx, hxe⟩ := he
    by_cases hxid : (x.id == id) = true
    · rw [if_pos hxid] at hxe
      subst hxe
      have hchk : eventRowChecksOk (eventRowUpdate data availAssign x) = true := by
        by_contra hc
        apply hany
        refine List.any_eq_true.mpr ⟨x, hx, ?_⟩
        simp only [hxid, Bool.true_and, Bool.not_eq_true']
        exact Bool.not_eq_true _ ▸ (by simpa using hc)
      unfold eventRowChecksOk at hchk
      simp only [Bool.and_eq_true, Bool.not_eq_true', decide_eq_false_iff_not,
        Int.not_lt] at hchk
      exact hchk.1.2
    · rw [if_neg hxid] at hxe
      subst hxe
      exact hlow x hx

/-- Any admin event update keeps every available count nonnegative. -/
lemma update_preserves_lower (db : Db) (id : Nat) (data : UpdateEventDto)
    (hlow : ∀ e ∈ db.events, 0 ≤ e.available_tickets) :
    ∀ e ∈ (updateEvent db id data).2.events, 0 ≤ e.available_tickets := by
  unfold updateEvent
  by_cases he : data.isEmpty = true
  · simp only [he, if_true]
    exact hlow
  · simp only [he, Bool.false_eq_true, if_false]
    cases hdt : data.total_tickets with
    | none => exact applyEventUpdate_lower db id data data.available_tickets hlow
    | some newTotal =>
        cases hev : getEventById db id with
        | none => exact hlow
        | some cur =>
            by_cases hs : data.available_tickets.isSome = true
            · simp only [hs, if_true]
              exact hlow
            · simp only [hs, Bool.false_eq_true, if_false]
              exact applyEventUpdate_lower db id data _ hlow

/-- An admin update that does not supply available_tickets directly
preserves the full inventory invariant: the adjustment path clamps the new
availability at zero and keeps it below the new total. -/
lemma update_no_direct_avail_preserves (db : Db) (id : Nat)
    (data : UpdateEventDto) (hda : data.available_tickets = none)
    (hinv : DbInvariant db) : DbInvariant (updateEvent db id data).2 := by
  unfold updateEvent
  by_cases he : data.isEmpty = true
  · simp only [he, if_true]
    exact hinv
  · simp only [he, Bool.false_eq_true, if_false]
    cases hdt : data.total_tickets with
    | none =>
        rw [hda]
        apply applyEventUpdate_invariant db id data none hinv
        intro x hx _ _
        rw [hdt]
        simpa using (hinv x hx).2
    | some newTotal =>
        cases hev : getEventById db id with
        | none => exact hinv
        | some cur =>
            have hsome : data.available_tickets.isSome = false := by
              rw [hda]; rfl
            simp only [hsome, Bool.false_eq_true, if_false]
            apply applyEventUpdate_invariant db id data
              (some (max 0 (cur.available_tickets +
                (newTotal - cur.total_tickets)))) hinv
            intro x hx _ ht
            rw [hdt] at ht ⊢
            simp only [Option.getD_some] at ht ⊢
            have hcurmem : cur ∈ db.events := by
              unfold getEventById at hev
              exact List.mem_of_find?_eq_some hev
            have hcur := hinv cur hcurmem
            exact max_le ht (by omega)

/-- C7 amended: the inventory invariant 0 <= available_tickets <=
total_tickets is preserved by event creation, by every controller-level
purchase (under unique event ids), and by every admin update that does not
set available_tickets directly; every admin update, including one that sets
available_tickets directly, still preserves the lower bound 0 <=
available_tickets, which is the only part the database CHECK enforces. -/
theorem inventory_invariant_preserved :
    (∀ (db : Db) (data : CreateEventDto), DbInvariant db →
        DbInvariant (createEvent db data).2) ∧
    (∀ (f : FaultSpec) (db : Db) (user : Option AuthPayload)
        (eventIdParam : Option Nat) (quantity : Option Int),
        DbInvariant db → UniqueEventIds db →
        DbInvariant (purchaseController f db user eventIdParam quantity).2) ∧
    (∀ (db : Db) (id : Nat) (data : UpdateEventDto),
        data.available_tickets = none → DbInvariant db →
        DbInvariant (updateEvent db id data).2) ∧
    (∀ (db : Db) (id : Nat) (data : UpdateEventDto),
        (∀ e ∈ db.events, 0 ≤ e.available_tickets) →
        ∀ e ∈ (updateEvent db id data).2.events, 0 ≤ e.available_tickets) := by
  refine ⟨createEvent_preserves_invariant, ?_,
    update_no_direct_avail_preserves, update_preserves_lower⟩
  intro f db user eidp qp hinv hnd
  unfold purchaseController
  cases user with
  | none => exact hinv
  | some u =>
      cases eidp with
      | none => exact hinv
      | some eventId =>
          cases qp with
          | none => exact hinv
          | some q =>
              dsimp only
              by_cases hq : q < 1
              · rw [if_pos hq]
                exact hinv
              · rw [if_neg hq]
                have hp := purchase_preserves_invariant f db eventId q u.userId
                  (by omega) hinv hnd
                rcases hres : purchaseTickets f db eventId q u.userId with ⟨r, db2⟩
                rw [hres] at hp
                cases r with
                | ok v => exact hp
                | error m => exact hp

/-- Witness for the C7 amended theorem: creation, a concrete purchase of
three of five tickets, a pure price update, and a direct availability
update on the concrete database, all preserving their respective bounds. -/
theorem inventory_invariant_preserved_witness :
    DbInvariant (createEvent gigDb
      { title := "Second", total_tickets := 4, price := 50, status := none }).2 ∧
    DbInvariant (purchaseController noFaults gigDb (some alicePayload)
      (some 1) (some 3)).2 ∧
    DbInvariant (updateEvent gigDb 1
      { title := none, total_tickets := some 9, available_tickets := none
        price := none, status := none }).2 ∧
    ∀ e ∈ (updateEvent gigDb 1
      { title := none, total_tickets := none, available_tickets := some 6
        price := none, status := none }).2.events, 0 ≤ e.available_tickets :=
  ⟨inventory_invariant_preserved.1 gigDb
      { title := "Second", total_tickets := 4, price := 50, status := none }
      (by decide),
    inventory_invariant_preserved.2.1 noFaults gigDb (some alicePayload)
      (some 1) (some 3) (by decide) (by decide),
    inventory_invariant_preserved.2.2.1 gigDb 1
      { title := none, total_tickets := some 9, available_tickets := none
        price := none, status := none } rfl (by decide),
    inventory_invariant_preserved.2.2.2 gigDb 1
      { title := none, total_tickets := none, available_tickets := some 6
        price := none, status := none } (by decide)⟩

end TicketApp
